import Mathlib

/-!
# Verification of the schedule-impact analysis engine

Shallow embedding of the core of `pm-chat-assist-querypreprocess`
(`src/backend/date_utils.py`, `src/backend/models.py`,
`src/backend/analyzer.py`) and proofs about it.

Dates are modelled at day granularity as natural numbers counting days
since 1970-01-01 (a Thursday, so Python's `date.weekday()` — Monday = 0 —
becomes `(d + 3) % 7`).  The third-party `holidays.US()` dictionary is
modelled as a parameter `usHolidays : Nat → Option String` carried by the
`DateUtils` structure (membership test = `isSome`, `.get(date, "")` =
`getD ""`), since the holiday table itself is external to the repository.
-/

namespace PMChat

/-- Python `datetime.weekday()` for day number `d` (days since 1970-01-01,
which was a Thursday): Monday = 0, ..., Sunday = 6. -/
def pyWeekday (d : Nat) : Nat := (d + 3) % 7

/-- Civil-date conversion (days since 1970-01-01 to year/month/day),
the standard Gregorian-calendar algorithm; everything stays in `Nat`
because the day number is nonnegative. -/
def civilFromDays (z : Nat) : Nat × Nat × Nat :=
  let z' := z + 719468
  let era := z' / 146097
  let doe := z' % 146097
  let yoe := (doe - doe / 1460 + doe / 36524 - doe / 146096) / 365
  let doy := doe - (365 * yoe + yoe / 4 - yoe / 100)
  let mp := (5 * doy + 2) / 153
  let dd := doy - (153 * mp + 2) / 5 + 1
  let mm := if mp < 10 then mp + 3 else mp - 9
  let yy := yoe + era * 400 + (if mm ≤ 2 then 1 else 0)
  (yy, mm, dd)

/-- Zero-pad a number to two digits, as `%m` / `%d` do. -/
def pad2 (n : Nat) : String := if n < 10 then "0" ++ toString n else toString n

/-- Python `date.strftime("%Y-%m-%d")` for a day number (years here are
always ≥ 1970, hence four digits). -/
def isoDate (d : Nat) : String :=
  let c := civilFromDays d
  toString c.1 ++ "-" ++ pad2 c.2.1 ++ "-" ++ pad2 c.2.2

/-- Embeds `DateUtils` from `src/backend/date_utils.py`.  The field is the
`holidays.US()` dictionary: `none` = not a holiday, `some name` = holiday
with that name. -/
structure DateUtils where
  usHolidays : Nat → Option String

/-- Embeds `DateUtils.is_holiday`: `date in self.us_holidays`. -/
def DateUtils.is_holiday (du : DateUtils) (d : Nat) : Bool :=
  (du.usHolidays d).isSome

/-- Embeds `DateUtils.is_weekend`: `date.weekday() >= 5`. -/
def DateUtils.is_weekend (_du : DateUtils) (d : Nat) : Bool :=
  pyWeekday d ≥ 5

/-- Embeds `DateUtils.get_holiday_name`: `self.us_holidays.get(date, '')`. -/
def DateUtils.get_holiday_name (du : DateUtils) (d : Nat) : String :=
  (du.usHolidays d).getD ""

/-- One iteration bucket of the `while` loop in
`DateUtils.get_next_business_day`.  The Python loop is unguarded; the
`fuel` argument only makes the embedding total: `none` means the loop had
not returned after `fuel` iterations. -/
def nbdLoop (du : DateUtils) : Nat → Nat → Option Nat
  | 0, _ => none
  | fuel + 1, nd =>
      if du.is_holiday nd || du.is_weekend nd then nbdLoop du fuel (nd + 1)
      else some nd

/-- Embeds `DateUtils.get_next_business_day`, fuelled: starts at `date + 1` and
walks forward past holidays and weekends. -/
def get_next_business_day (du : DateUtils) (fuel : Nat) (d : Nat) : Option Nat :=
  nbdLoop du fuel (d + 1)

/-- Body of the `while` loop of `DateUtils.find_impacted_dates`, structurally
recursive on the number of remaining days of the span. -/
def findImpactedFrom (du : DateUtils) : Nat → Nat → List (Nat × String)
  | _, 0 => []
  | s, n + 1 =>
      (if du.is_holiday s then [(s, "Holiday: " ++ du.get_holiday_name s)]
       else if du.is_weekend s then [(s, "Weekend")]
       else []) ++ findImpactedFrom du (s + 1) n

/-- Embeds `DateUtils.find_impacted_dates`: all holidays and weekends in the
inclusive span `[start_date, end_date]`, holidays taking the `elif` branch
priority over weekends. -/
def find_impacted_dates (du : DateUtils) (s e : Nat) : List (Nat × String) :=
  findImpactedFrom du s (e + 1 - s)

/-- Embeds `Task` from `src/backend/models.py` (dates at day granularity). -/
structure Task where
  id : String
  name : String
  start_date : Nat
  end_date : Nat
  duration : Int
  predecessors : Option (List String) := none
  successors : Option (List String) := none
deriving DecidableEq, Repr

/-- Embeds `TaskImpact` from `src/backend/models.py`.  The `impact_type`
field is carried as the raw string the analyzer passes to the constructor;
pydantic's `Literal["holiday", "weekend"]` constraint is modelled separately
by `validImpactType`. -/
structure TaskImpact where
  task : Task
  impact_type : String
  impact_description : String
  delay_days : Option Int := none
deriving DecidableEq, Repr

/-- The `Literal["holiday", "weekend"]` annotation on
`TaskImpact.impact_type`: pydantic raises a `ValidationError` at
construction time for any other string. -/
def validImpactType (s : String) : Bool :=
  s = "holiday" || s = "weekend"

/-- Embeds `AnalysisResponse` from `src/backend/models.py`. -/
structure AnalysisResponse where
  impacted_tasks : List TaskImpact
  total_project_delay : Option Int := none
  analysis_summary : String
deriving DecidableEq, Repr

/-- Embeds `ProjectAnalyzer.find_holiday_tasks`: flag tasks that start or end on a
holiday; the loop's conditional appends become a `filterMap`. -/
def find_holiday_tasks (du : DateUtils) (tasks : List Task) : List TaskImpact :=
  tasks.filterMap (fun task =>
    let start_holiday := du.is_holiday task.start_date
    let end_holiday := du.is_holiday task.end_date
    if start_holiday || end_holiday then
      let d1 : List String :=
        if start_holiday then
          ["Task starts on holiday: " ++ du.get_holiday_name task.start_date ++
            " (" ++ isoDate task.start_date ++ ")"]
        else []
      let d2 : List String :=
        if end_holiday then
          ["Task ends on holiday: " ++ du.get_holiday_name task.end_date ++
            " (" ++ isoDate task.end_date ++ ")"]
        else []
      some { task := task
             impact_type := "holiday"
             impact_description := String.intercalate "; " (d1 ++ d2)
             delay_days := some (if start_holiday then 1 else 0) }
    else none)

/-- Embeds `ProjectAnalyzer.find_weekend_tasks`: flag tasks that start or end on a
weekend; delay is 2 for a Saturday start, 1 for a Sunday start, else 0. -/
def find_weekend_tasks (du : DateUtils) (tasks : List Task) : List TaskImpact :=
  tasks.filterMap (fun task =>
    let start_weekend := du.is_weekend task.start_date
    let end_weekend := du.is_weekend task.end_date
    if start_weekend || end_weekend then
      let d1 : List String :=
        if start_weekend then
          ["Task starts on weekend (" ++ isoDate task.start_date ++ ")"]
        else []
      let d2 : List String :=
        if end_weekend then
          ["Task ends on weekend (" ++ isoDate task.end_date ++ ")"]
        else []
      some { task := task
             impact_type := "weekend"
             impact_description := String.intercalate "; " (d1 ++ d2)
             delay_days :=
               some (if start_weekend && pyWeekday task.start_date == 5 then 2
                     else if start_weekend then 1 else 0) }
    else none)

/-- Embeds `ProjectAnalyzer.find_tasks_impacted_by_date`: flag every task whose
inclusive span contains the target date.  Note the third branch passes the
string `"general_query"` to the `TaskImpact` constructor. -/
def find_tasks_impacted_by_date (du : DateUtils) (tasks : List Task)
    (target_date : Nat) : List TaskImpact :=
  let is_hol := du.is_holiday target_date
  let holiday_name := if is_hol then du.get_holiday_name target_date else ""
  tasks.filterMap (fun task =>
    if task.start_date ≤ target_date ∧ target_date ≤ task.end_date then
      let ity := if is_hol then "holiday"
                 else if du.is_weekend target_date then "weekend"
                 else "general_query"
      let base := "Task is active on " ++ isoDate target_date
      let desc := if is_hol then base ++ " which is a holiday: " ++ holiday_name
                  else if du.is_weekend target_date then base ++ " which is a weekend"
                  else base
      some { task := task
             impact_type := ity
             impact_description := desc
             delay_days :=
               some (if is_hol || du.is_weekend target_date then 1 else 0) }
    else none)

/-- The inner `while` loop of `ProjectAnalyzer.calculate_weekend_impact`:
count weekend days starting at `s`, for `n` remaining loop iterations
(`n = end_date + 1 - start_date`). -/
def countWeekendFrom (du : DateUtils) (s : Nat) : Nat → Nat
  | 0 => 0
  | n + 1 => (if du.is_weekend s then 1 else 0) + countWeekendFrom du (s + 1) n

/-- Number of weekend days in the inclusive span `[s, e]`, as the linear
scan of `calculate_weekend_impact` computes it. -/
def weekendDaysInSpan (du : DateUtils) (s e : Nat) : Nat :=
  countWeekendFrom du s (e + 1 - s)

/-- The finding `calculate_weekend_impact` builds for a task with
`w > 0` weekend days in its span. -/
def weekendSpanImpact (task : Task) (w : Nat) : TaskImpact :=
  { task := task
    impact_type := "weekend"
    impact_description := "Task spans " ++ toString w ++ " weekend days"
    delay_days := some (w : Int) }

/-- The main loop of `calculate_weekend_impact`: accumulates the findings
(in task order) and `total_delay = max(total_delay, weekend_days)`. -/
def weekendLoop (du : DateUtils) : List Task → List TaskImpact × Int
  | [] => ([], 0)
  | task :: rest =>
      let w := weekendDaysInSpan du task.start_date task.end_date
      let acc := weekendLoop du rest
      if 0 < w then (weekendSpanImpact task w :: acc.1, max (w : Int) acc.2)
      else acc

/-- Sort key used by `impacted_tasks.sort(key=lambda x: x.delay_days or 0,
reverse=True)`. -/
def sortKey (i : TaskImpact) : Int := i.delay_days.getD 0

/-- Insert `x` into a delay-descending sorted list, before the first element
whose key is `≤` the key of `x` (so an element inserted later from a foldr,
i.e. one earlier in the original list, lands before its equals). -/
def insertDesc (x : TaskImpact) : List TaskImpact → List TaskImpact
  | [] => [x]
  | y :: ys => if sortKey y ≤ sortKey x then x :: y :: ys else y :: insertDesc x ys

/-- Models CPython's stable `list.sort(key=..., reverse=True)`: a stable
sort by `sortKey` descending (stable sorts under the same total preorder
agree, so stable insertion sort is extensionally the same function). -/
def pySortDesc (l : List TaskImpact) : List TaskImpact :=
  l.foldr insertDesc []

/-- Embeds `ProjectAnalyzer.calculate_weekend_impact`. -/
def calculate_weekend_impact (du : DateUtils) (tasks : List Task) : AnalysisResponse :=
  let acc := weekendLoop du tasks
  { impacted_tasks := pySortDesc acc.1
    total_project_delay := some acc.2
    analysis_summary :=
      "Project would be delayed by approximately " ++ toString acc.2 ++
        " days if no weekend work is allowed." }

/-- Embeds `ProjectAnalyzer.analyze_query`: dispatch over the mode selector. -/
def analyze_query (du : DateUtils) (query_type : String) (tasks : List Task)
    (specific_date : Option Nat := none) : AnalysisResponse :=
  if query_type = "holiday_impact" then
    let impacted := find_holiday_tasks du tasks
    { impacted_tasks := impacted
      analysis_summary :=
        "Found " ++ toString impacted.length ++ " tasks impacted by holidays" }
  else if query_type = "weekend_impact" then
    calculate_weekend_impact du tasks
  else if query_type = "specific_date" ∧ specific_date.isSome then
    match specific_date with
    | some d =>
        let impacted := find_tasks_impacted_by_date du tasks d
        { impacted_tasks := impacted
          analysis_summary :=
            "Found " ++ toString impacted.length ++ " tasks impacted by date " ++
              isoDate d }
    | none =>
        { impacted_tasks := []
          analysis_summary := "Invalid query type or missing required parameters" }
  else
    { impacted_tasks := []
      analysis_summary := "Invalid query type or missing required parameters" }

/-! ## Concrete calendars and tasks used to instantiate theorems -/

/-- A calendar with no holidays at all. -/
def noHolidays : DateUtils := ⟨fun _ => none⟩

/-- A calendar whose only holiday is 2026-07-04 (day number 20638). -/
def julyFourthCal : DateUtils :=
  ⟨fun d => if d = 20638 then some "Independence Day" else none⟩

/-- A malformed calendar on which every day is a holiday. -/
def allHolidayCal : DateUtils := ⟨fun _ => some "Perpetual Holiday"⟩

/-- A calendar whose only holiday is day 2, which is also a Saturday. -/
def saturdayHolidayCal : DateUtils :=
  ⟨fun d => if d = 2 then some "New Years Observed" else none⟩

/-- A one-day task on Monday 1970-01-05 (day 4). -/
def mondayTask : Task :=
  { id := "2", name := "Review", start_date := 4, end_date := 4, duration := 1 }

/-- A task running Saturday 1970-01-03 to Sunday 1970-01-04 (days 2-3). -/
def saturdayTask : Task :=
  { id := "1", name := "Build", start_date := 2, end_date := 3, duration := 1 }

/-- A task running 2026-07-04 to 2026-07-06 (days 20638-20640). -/
def julyTask : Task :=
  { id := "3", name := "Launch", start_date := 20638, end_date := 20640, duration := 2 }

/-! ## Theorems -/

/-- C1: target-date mode, on a task whose span contains a target date that
is neither a holiday nor a weekend day, computes `impact_type =
"general_query"` — a value the `Literal["holiday", "weekend"]` annotation
of `TaskImpact.impact_type` rejects, so the real code raises a pydantic
`ValidationError` there instead of producing the finding the claim
describes. -/
theorem target_date_general_branch_invalid_type :
    (find_tasks_impacted_by_date noHolidays [mondayTask] 4).map TaskImpact.impact_type
      = ["general_query"]
    ∧ validImpactType "general_query" = false := by
  decide

/-- C2: an unknown mode selector, or `specific_date` with no date supplied,
yields the empty findings list and the fixed invalid-query summary; the
dispatch is total, so every such call returns a renderable result. -/
theorem analyze_query_invalid_result (du : DateUtils) (tasks : List Task)
    (query_type : String) (specific_date : Option Nat)
    (h : (query_type ≠ "holiday_impact" ∧ query_type ≠ "weekend_impact" ∧
            query_type ≠ "specific_date")
         ∨ (query_type = "specific_date" ∧ specific_date = none)) :
    analyze_query du query_type tasks specific_date =
      { impacted_tasks := []
        total_project_delay := none
        analysis_summary := "Invalid query type or missing required parameters" } := by
  rcases h with ⟨h1, h2, h3⟩ | ⟨h1, h2⟩
  · unfold analyze_query
    rw [if_neg h1, if_neg h2, if_neg (fun hc => h3 hc.1)]
  · subst h1; subst h2
    unfold analyze_query
    rw [if_neg (by decide), if_neg (by decide), if_neg (by decide)]

theorem analyze_query_invalid_result_witness :
    analyze_query noHolidays "" [mondayTask] none =
      { impacted_tasks := []
        total_project_delay := none
        analysis_summary := "Invalid query type or missing required parameters" } :=
  analyze_query_invalid_result noHolidays [mondayTask] "" none (Or.inl (by decide))

/-- C10: the dispatcher attaches a `total_project_delay` only in
`weekend_impact` mode; every other selector (valid or not) returns a
result whose aggregate delay is `none`. -/
theorem analyze_query_total_delay_only_weekend (du : DateUtils)
    (tasks : List Task) (query_type : String) (specific_date : Option Nat)
    (h : query_type ≠ "weekend_impact") :
    (analyze_query du query_type tasks specific_date).total_project_delay = none := by
  unfold analyze_query
  by_cases h1 : query_type = "holiday_impact"
  · rw [if_pos h1]
  · rw [if_neg h1, if_neg h]
    by_cases h3 : query_type = "specific_date" ∧ specific_date.isSome
    · rw [if_pos h3]
      cases specific_date with
      | none => rfl
      | some d => rfl
    · rw [if_neg h3]

theorem analyze_query_total_delay_only_weekend_witness :
    (analyze_query julyFourthCal "holiday_impact" [julyTask] none).total_project_delay
      = none :=
  analyze_query_total_delay_only_weekend julyFourthCal [julyTask] "holiday_impact"
    none (by decide)

/-- C4: every finding of per-task weekend analysis falls into exactly one
of three cases: Saturday start (delay 2), Sunday start (delay 1), or
weekday start with weekend end (delay 0) — the start-date rule always
wins. -/
theorem find_weekend_tasks_delay_policy (du : DateUtils) (tasks : List Task)
    (i : TaskImpact) (h : i ∈ find_weekend_tasks du tasks) :
    (pyWeekday i.task.start_date = 5 ∧ i.delay_days = some 2)
    ∨ (pyWeekday i.task.start_date = 6 ∧ i.delay_days = some 1)
    ∨ (du.is_weekend i.task.start_date = false ∧ du.is_weekend i.task.end_date = true
        ∧ i.delay_days = some 0) := by
  simp only [find_weekend_tasks, List.mem_filterMap] at h
  obtain ⟨t, ht, hf⟩ := h
  by_cases hc : (du.is_weekend t.start_date || du.is_weekend t.end_date) = true
  · rw [if_pos hc, Option.some.injEq] at hf
    subst hf
    simp only
    have h7 : pyWeekday t.start_date < 7 := Nat.mod_lt _ (by omega)
    by_cases h5 : pyWeekday t.start_date = 5
    · left
      refine ⟨h5, ?_⟩
      have hsw : du.is_weekend t.start_date = true := by
        simp [DateUtils.is_weekend, h5]
      simp [hsw, h5]
    · by_cases h6 : pyWeekday t.start_date = 6
      · right; left
        refine ⟨h6, ?_⟩
        have hsw : du.is_weekend t.start_date = true := by
          simp [DateUtils.is_weekend, h6]
        simp [hsw, h6]
      · right; right
        have hsw : du.is_weekend t.start_date = false := by
          simp only [DateUtils.is_weekend, decide_eq_false_iff_not]
          omega
        have hew : du.is_weekend t.end_date = true := by
          rcases Bool.or_eq_true_iff.mp hc with h | h
          · rw [hsw] at h; exact absurd h (by decide)
          · exact h
        exact ⟨hsw, hew, by simp [hsw]⟩
  · rw [if_neg hc] at hf
    exact absurd hf (by simp)

theorem find_weekend_tasks_delay_policy_witness :
    (pyWeekday saturdayTask.start_date = 5 ∧
      (TaskImpact.mk saturdayTask "weekend"
        "Task starts on weekend (1970-01-03); Task ends on weekend (1970-01-04)"
        (some 2)).delay_days = some 2)
    ∨ (pyWeekday saturdayTask.start_date = 6 ∧
      (TaskImpact.mk saturdayTask "weekend"
        "Task starts on weekend (1970-01-03); Task ends on weekend (1970-01-04)"
        (some 2)).delay_days = some 1)
    ∨ (noHolidays.is_weekend saturdayTask.start_date = false ∧
        noHolidays.is_weekend saturdayTask.end_date = true ∧
      (TaskImpact.mk saturdayTask "weekend"
        "Task starts on weekend (1970-01-03); Task ends on weekend (1970-01-04)"
        (some 2)).delay_days = some 0) :=
  find_weekend_tasks_delay_policy noHolidays [saturdayTask]
    (TaskImpact.mk saturdayTask "weekend"
      "Task starts on weekend (1970-01-03); Task ends on weekend (1970-01-04)"
      (some 2)) (by decide)

/-- Spec-side reading of the holiday-impact description: one clause per
triggering boundary, each naming the holiday and its ISO date; the clauses
are then joined with "; ". -/
def specHolidayClauses (du : DateUtils) (t : Task) : List String :=
  (if du.is_holiday t.start_date then
     ["Task starts on holiday: " ++ du.get_holiday_name t.start_date ++
       " (" ++ isoDate t.start_date ++ ")"]
   else []) ++
  (if du.is_holiday t.end_date then
     ["Task ends on holiday: " ++ du.get_holiday_name t.end_date ++
       " (" ++ isoDate t.end_date ++ ")"]
   else [])

/-- C5: a task is flagged by holiday-impact mode iff its start or end date
is a holiday; each finding's delay is 1 exactly when the start date is a
holiday, else 0, and its description is the "; "-join of one clause per
triggering boundary. -/
theorem find_holiday_tasks_flag_and_delay (du : DateUtils) (tasks : List Task)
    (t : Task) (ht : t ∈ tasks) :
    ((∃ i ∈ find_holiday_tasks du tasks, i.task = t) ↔
        (du.is_holiday t.start_date || du.is_holiday t.end_date) = true)
    ∧ ∀ i ∈ find_holiday_tasks du tasks,
        i.delay_days = some (if du.is_holiday i.task.start_date then 1 else 0)
        ∧ i.impact_description = String.intercalate "; " (specHolidayClauses du i.task) := by
  constructor
  · constructor
    · rintro ⟨i, hi, rfl⟩
      simp only [find_holiday_tasks, List.mem_filterMap] at hi
      obtain ⟨a, _, hf⟩ := hi
      by_cases hc : (du.is_holiday a.start_date || du.is_holiday a.end_date) = true
      · rw [if_pos hc, Option.some.injEq] at hf
        subst hf
        exact hc
      · rw [if_neg hc] at hf
        exact absurd hf (by simp)
    · intro hc
      refine ⟨{ task := t
                impact_type := "holiday"
                impact_description := String.intercalate "; " (specHolidayClauses du t)
                delay_days := some (if du.is_holiday t.start_date then 1 else 0) },
              List.mem_filterMap.mpr ⟨t, ht, ?_⟩, rfl⟩
      show (if (du.is_holiday t.start_date || du.is_holiday t.end_date) = true
              then _ else none) = _
      rw [if_pos hc]
      rfl
  · intro i hi
    simp only [find_holiday_tasks, List.mem_filterMap] at hi
    obtain ⟨a, _, hf⟩ := hi
    by_cases hc : (du.is_holiday a.start_date || du.is_holiday a.end_date) = true
    · rw [if_pos hc, Option.some.injEq] at hf
      subst hf
      exact ⟨rfl, rfl⟩
    · rw [if_neg hc] at hf
      exact absurd hf (by simp)

theorem find_holiday_tasks_flag_and_delay_witness :
    (julyFourthCal.is_holiday julyTask.start_date ||
        julyFourthCal.is_holiday julyTask.end_date) = true
    ∧ ∃ i ∈ find_holiday_tasks julyFourthCal [julyTask], i.task = julyTask :=
  ⟨by decide,
    ((find_holiday_tasks_flag_and_delay julyFourthCal [julyTask] julyTask
        (by decide)).1).mpr (by decide)⟩

/-! ## Lemmas about the project-wide weekend mode -/

/-- The calendar dates of the inclusive span `[s, e]`, in order. -/
def spanDates (s e : Nat) : List Nat :=
  (List.range (e + 1 - s)).map (fun i => s + i)

/-- Maximum of the findings' `delay_days` values, 0 when there are none. -/
def maxDelay (l : List TaskImpact) : Int :=
  l.foldr (fun i m => max (i.delay_days.getD 0) m) 0

lemma countWeekendFrom_eq_countP (du : DateUtils) :
    ∀ (n s : Nat), countWeekendFrom du s n
      = ((List.range n).map (fun i => s + i)).countP du.is_weekend := by
  intro n
  induction n with
  | zero => intro s; rfl
  | succ m ih =>
      intro s
      have hfun : ((fun i => s + i) ∘ Nat.succ) = (fun i => (s + 1) + i) :=
        funext fun i => by simp only [Function.comp_apply]; omega
      rw [List.range_succ_eq_map, List.map_cons, List.map_map, hfun, List.countP_cons]
      simp only [countWeekendFrom, ih (s + 1), Nat.add_zero]
      exact Nat.add_comm _ _

lemma weekendDaysInSpan_eq_countP (du : DateUtils) (s e : Nat) :
    weekendDaysInSpan du s e = (spanDates s e).countP du.is_weekend :=
  countWeekendFrom_eq_countP du (e + 1 - s) s

lemma weekendLoop_fst_eq (du : DateUtils) (tasks : List Task) :
    (weekendLoop du tasks).1 = tasks.filterMap (fun t =>
      let w := weekendDaysInSpan du t.start_date t.end_date
      if 0 < w then some (weekendSpanImpact t w) else none) := by
  induction tasks with
  | nil => rfl
  | cons t ts ih =>
      by_cases hw : 0 < weekendDaysInSpan du t.start_date t.end_date <;>
        simp [weekendLoop, List.filterMap_cons, hw, ih]

lemma weekendLoop_snd_eq (du : DateUtils) (tasks : List Task) :
    (weekendLoop du tasks).2 = maxDelay (weekendLoop du tasks).1 := by
  induction tasks with
  | nil => rfl
  | cons t ts ih =>
      by_cases hw : 0 < weekendDaysInSpan du t.start_date t.end_date <;>
        simp [weekendLoop, hw, maxDelay, weekendSpanImpact, ih]

lemma mem_insertDesc {a x : TaskImpact} : ∀ {l : List TaskImpact},
    a ∈ insertDesc x l ↔ a = x ∨ a ∈ l := by
  intro l
  induction l with
  | nil => simp [insertDesc]
  | cons y ys ih =>
      by_cases h : sortKey y ≤ sortKey x
      · simp [insertDesc, h, ih]
      · simp [insertDesc, h, ih]
        tauto

lemma maxDelay_insertDesc (x : TaskImpact) : ∀ (l : List TaskImpact),
    maxDelay (insertDesc x l) = max (x.delay_days.getD 0) (maxDelay l) := by
  intro l
  induction l with
  | nil => rfl
  | cons y ys ih =>
      by_cases h : sortKey y ≤ sortKey x
      · simp [insertDesc, h, maxDelay]
      · simp only [insertDesc, if_neg h, maxDelay, List.foldr_cons] at ih ⊢
        rw [ih, max_left_comm]

lemma maxDelay_pySortDesc (l : List TaskImpact) :
    maxDelay (pySortDesc l) = maxDelay l := by
  induction l with
  | nil => rfl
  | cons x xs ih =>
      show maxDelay (insertDesc x (pySortDesc xs)) = _
      rw [maxDelay_insertDesc, ih]
      rfl

lemma pairwise_insertDesc (x : TaskImpact) : ∀ {l : List TaskImpact},
    l.Pairwise (fun a b => sortKey b ≤ sortKey a) →
    (insertDesc x l).Pairwise (fun a b => sortKey b ≤ sortKey a) := by
  intro l
  induction l with
  | nil => intro _; simp [insertDesc]
  | cons y ys ih =>
      intro h
      rw [List.pairwise_cons] at h
      obtain ⟨hy, hys⟩ := h
      by_cases hc : sortKey y ≤ sortKey x
      · simp only [insertDesc, if_pos hc]
        refine List.Pairwise.cons ?_ (List.Pairwise.cons hy hys)
        intro b hb
        rcases List.mem_cons.mp hb with rfl | hb
        · exact hc
        · exact le_trans (hy b hb) hc
      · simp only [insertDesc, if_neg hc]
        refine List.Pairwise.cons ?_ (ih hys)
        intro b hb
        rcases mem_insertDesc.mp hb with rfl | hb
        · exact le_of_not_le hc
        · exact hy b hb

lemma pairwise_pySortDesc (l : List TaskImpact) :
    (pySortDesc l).Pairwise (fun a b => sortKey b ≤ sortKey a) := by
  induction l with
  | nil => simp [pySortDesc]
  | cons x xs ih => exact pairwise_insertDesc x ih

lemma filter_insertDesc_key_eq (x : TaskImpact) (k : Int) (hx : sortKey x = k) :
    ∀ (l : List TaskImpact),
      (insertDesc x l).filter (fun i => sortKey i == k)
        = x :: l.filter (fun i => sortKey i == k) := by
  intro l
  induction l with
  | nil => simp [insertDesc, List.filter, hx]
  | cons y ys ih =>
      by_cases hc : sortKey y ≤ sortKey x
      · simp only [insertDesc, if_pos hc]
        rw [List.filter_cons_of_pos (by simp [hx])]
      · have hyk : (sortKey y == k) = false := by
          simp only [beq_eq_false_iff_ne, ne_eq]
          omega
        simp only [insertDesc, if_neg hc, List.filter_cons, hyk, ih]
        simp

lemma filter_insertDesc_key_ne (x : TaskImpact) (k : Int) (hx : sortKey x ≠ k) :
    ∀ (l : List TaskImpact),
      (insertDesc x l).filter (fun i => sortKey i == k)
        = l.filter (fun i => sortKey i == k) := by
  intro l
  induction l with
  | nil =>
      show List.filter _ [x] = []
      rw [List.filter_cons_of_neg (by simp [hx])]
      rfl
  | cons y ys ih =>
      by_cases hc : sortKey y ≤ sortKey x
      · simp only [insertDesc, if_pos hc]
        rw [List.filter_cons_of_neg (by simp [hx])]
      · simp only [insertDesc, if_neg hc, List.filter_cons, ih]

lemma filter_pySortDesc (k : Int) : ∀ (l : List TaskImpact),
    (pySortDesc l).filter (fun i => sortKey i == k)
      = l.filter (fun i => sortKey i == k) := by
  intro l
  induction l with
  | nil => rfl
  | cons x xs ih =>
      show (insertDesc x (pySortDesc xs)).filter _ = _
      by_cases hx : sortKey x = k
      · rw [filter_insertDesc_key_eq x k hx, ih,
          List.filter_cons_of_pos (by simp [hx])]
      · rw [filter_insertDesc_key_ne x k hx, ih,
          List.filter_cons_of_neg (by simp [hx])]

/-- C3: project-wide weekend mode sets `total_project_delay` to the maximum
of the findings' `delay_days` (0 when there are no findings), never the
sum. -/
theorem weekend_total_project_delay_is_max (du : DateUtils) (tasks : List Task) :
    (calculate_weekend_impact du tasks).total_project_delay
      = some (maxDelay (calculate_weekend_impact du tasks).impacted_tasks) := by
  show some (weekendLoop du tasks).2
      = some (maxDelay (pySortDesc (weekendLoop du tasks).1))
  rw [maxDelay_pySortDesc, ← weekendLoop_snd_eq]

/-- C6: project-wide weekend mode counts, for each task, the weekend days
among the calendar dates of the task's inclusive span; a task contributes a
finding iff that count is positive, with `delay_days` equal to the count,
and the summary literally states the aggregate number. -/
theorem calculate_weekend_impact_span_count_and_summary (du : DateUtils)
    (tasks : List Task) :
    (calculate_weekend_impact du tasks).impacted_tasks
      = pySortDesc (tasks.filterMap (fun t =>
          let c := (spanDates t.start_date t.end_date).countP du.is_weekend
          if 0 < c then
            some { task := t
                   impact_type := "weekend"
                   impact_description := "Task spans " ++ toString c ++ " weekend days"
                   delay_days := some (c : Int) }
          else none))
    ∧ (calculate_weekend_impact du tasks).analysis_summary
      = "Project would be delayed by approximately "
          ++ toString ((calculate_weekend_impact du tasks).total_project_delay.getD 0)
          ++ " days if no weekend work is allowed." := by
  constructor
  · show pySortDesc (weekendLoop du tasks).1 = _
    rw [weekendLoop_fst_eq]
    refine congrArg pySortDesc ?_
    refine congrFun (congrArg List.filterMap (funext fun t => ?_)) tasks
    simp only [weekendDaysInSpan_eq_countP, weekendSpanImpact]
  · rfl

/-- C7: the findings of project-wide weekend mode are sorted by
`delay_days` descending, and the sort is stable: for every key the
findings with that key appear exactly as in the pre-sort loop output,
which itself lists the qualifying tasks in input order. -/
theorem weekend_findings_sorted_and_stable (du : DateUtils) (tasks : List Task)
    (k : Int) :
    ((calculate_weekend_impact du tasks).impacted_tasks).Pairwise
        (fun a b => sortKey b ≤ sortKey a)
    ∧ ((calculate_weekend_impact du tasks).impacted_tasks).filter
          (fun i => sortKey i == k)
        = ((weekendLoop du tasks).1).filter (fun i => sortKey i == k)
    ∧ (weekendLoop du tasks).1
        = tasks.filterMap (fun t =>
            let w := weekendDaysInSpan du t.start_date t.end_date
            if 0 < w then some (weekendSpanImpact t w) else none) :=
  ⟨pairwise_pySortDesc (weekendLoop du tasks).1,
    filter_pySortDesc k (weekendLoop du tasks).1,
    weekendLoop_fst_eq du tasks⟩

/-! ## Lemmas about `find_impacted_dates` -/

lemma weekend_ne_holiday_label (x : String) : "Weekend" ≠ "Holiday: " ++ x := by
  intro h
  have hd := congrArg String.data h
  rw [String.data_append] at hd
  have h1 : "Weekend".data = ['W', 'e', 'e', 'k', 'e', 'n', 'd'] := rfl
  have h2 : "Holiday: ".data = ['H', 'o', 'l', 'i', 'd', 'a', 'y', ':', ' '] := rfl
  rw [h1, h2] at hd
  simp at hd

lemma findImpactedFrom_fst_lb (du : DateUtils) :
    ∀ (n s : Nat) (p : Nat × String), p ∈ findImpactedFrom du s n → s ≤ p.1 := by
  intro n
  induction n with
  | zero =>
      intro s p hp
      exact absurd hp (by simp [findImpactedFrom])
  | succ m ih =>
      intro s p hp
      simp only [findImpactedFrom, List.mem_append] at hp
      rcases hp with hp | hp
      · split at hp
        · simp only [List.mem_singleton] at hp
          subst hp
          exact Nat.le_refl s
        · split at hp
          · simp only [List.mem_singleton] at hp
            subst hp
            exact Nat.le_refl s
          · exact absurd hp (List.not_mem_nil p)
      · exact le_trans (Nat.le_succ s) (ih (s + 1) p hp)

lemma findImpactedFrom_holiday (du : DateUtils) :
    ∀ (n s d : Nat), s ≤ d → d < s + n → du.is_holiday d = true →
      (d, "Holiday: " ++ du.get_holiday_name d) ∈ findImpactedFrom du s n
      ∧ (findImpactedFrom du s n).countP (fun p => p.1 == d) = 1
      ∧ (d, "Weekend") ∉ findImpactedFrom du s n := by
  intro n
  induction n with
  | zero =>
      intro s d h1 h2 _
      exact absurd h2 (by omega)
  | succ m ih =>
      intro s d h1 h2 hh
      by_cases hsd : s = d
      · subst hsd
        have htail0 : (findImpactedFrom du (s + 1) m).countP (fun p => p.1 == s) = 0 := by
          refine List.countP_eq_zero.mpr ?_
          intro p hp
          have := findImpactedFrom_fst_lb du m (s + 1) p hp
          simp only [beq_iff_eq]
          omega
        have htailmem : ∀ q : Nat × String, q.1 = s → q ∉ findImpactedFrom du (s + 1) m := by
          intro q hq hmem
          have := findImpactedFrom_fst_lb du m (s + 1) q hmem
          omega
        refine ⟨?_, ?_, ?_⟩
        · simp only [findImpactedFrom, if_pos hh, List.mem_append]
          exact Or.inl (List.mem_singleton.mpr rfl)
        · simp only [findImpactedFrom, if_pos hh, List.countP_append, htail0]
          simp
        · simp only [findImpactedFrom, if_pos hh, List.mem_append]
          rintro (hmem | hmem)
          · rw [List.mem_singleton, Prod.mk.injEq] at hmem
            exact weekend_ne_holiday_label _ hmem.2
          · exact htailmem (s, "Weekend") rfl hmem
      · have hs : s < d := by omega
        have ihd := ih (s + 1) d (by omega) (by omega) hh
        have hheadfst : ∀ p : Nat × String,
            p ∈ (if du.is_holiday s then [(s, "Holiday: " ++ du.get_holiday_name s)]
                 else if du.is_weekend s then [(s, "Weekend")] else []) → p.1 = s := by
          intro p hp
          split at hp
          · simp only [List.mem_singleton] at hp
            subst hp
            rfl
          · split at hp
            · simp only [List.mem_singleton] at hp
              subst hp
              rfl
            · exact absurd hp (List.not_mem_nil p)
        refine ⟨?_, ?_, ?_⟩
        · simp only [findImpactedFrom, List.mem_append]
          exact Or.inr ihd.1
        · simp only [findImpactedFrom, List.countP_append, ihd.2.1]
          have hhead0 : (if du.is_holiday s then [(s, "Holiday: " ++ du.get_holiday_name s)]
              else if du.is_weekend s then [(s, "Weekend")] else []).countP
                (fun p => p.1 == d) = 0 := by
            refine List.countP_eq_zero.mpr ?_
            intro p hp
            have := hheadfst p hp
            simp only [beq_iff_eq]
            omega
          rw [hhead0]
        · simp only [findImpactedFrom, List.mem_append]
          rintro (hmem | hmem)
          · have := hheadfst _ hmem
            simp at this
            omega
          · exact ihd.2.2 hmem

/-- C9: a date in the span that is both a holiday and a weekend day is
listed by `find_impacted_dates` exactly once, with the holiday reason and
never the weekend reason — the holiday branch takes priority. -/
theorem find_impacted_dates_holiday_priority (du : DateUtils) (s e d : Nat)
    (h1 : s ≤ d) (h2 : d ≤ e) (hh : du.is_holiday d = true)
    (_hw : du.is_weekend d = true) :
    (d, "Holiday: " ++ du.get_holiday_name d) ∈ find_impacted_dates du s e
    ∧ (find_impacted_dates du s e).countP (fun p => p.1 == d) = 1
    ∧ (d, "Weekend") ∉ find_impacted_dates du s e :=
  findImpactedFrom_holiday du (e + 1 - s) s d h1 (by omega) hh

theorem find_impacted_dates_holiday_priority_witness :
    (2, "Holiday: " ++ saturdayHolidayCal.get_holiday_name 2)
        ∈ find_impacted_dates saturdayHolidayCal 0 4
    ∧ (find_impacted_dates saturdayHolidayCal 0 4).countP (fun p => p.1 == 2) = 1
    ∧ (2, "Weekend") ∉ find_impacted_dates saturdayHolidayCal 0 4 :=
  find_impacted_dates_holiday_priority saturdayHolidayCal 0 4 2
    (by decide) (by decide) (by decide) (by decide)

/-! ## Lemmas about `get_next_business_day` -/

lemma nbdLoop_none_of_all_holiday :
    ∀ (fuel nd : Nat), nbdLoop allHolidayCal fuel nd = none := by
  intro fuel
  induction fuel with
  | zero => intro nd; rfl
  | succ n ih =>
      intro nd
      simp only [nbdLoop, DateUtils.is_holiday, allHolidayCal, Option.isSome_some,
        Bool.true_or, if_pos]
      exact ih (nd + 1)

lemma nbdLoop_finds (du : DateUtils) :
    ∀ (fuel nd : Nat),
      (∃ k, k < fuel ∧ (du.is_holiday (nd + k) || du.is_weekend (nd + k)) = false) →
      ∃ r, nbdLoop du fuel nd = some r ∧ nd ≤ r
        ∧ (du.is_holiday r || du.is_weekend r) = false
        ∧ ∀ x, nd ≤ x → x < r → (du.is_holiday x || du.is_weekend x) = true := by
  intro fuel
  induction fuel with
  | zero =>
      rintro nd ⟨k, hk, _⟩
      exact absurd hk (by omega)
  | succ f ih =>
      rintro nd ⟨k, hk, hwork⟩
      by_cases hc : (du.is_holiday nd || du.is_weekend nd) = true
      · have hk0 : k ≠ 0 := by
          intro h0
          rw [h0, Nat.add_zero] at hwork
          rw [hwork] at hc
          exact absurd hc (by decide)
        obtain ⟨r, hr, hle, hwr, hmin⟩ := ih (nd + 1)
          ⟨k - 1, by omega, by rw [show nd + 1 + (k - 1) = nd + k by omega]; exact hwork⟩
        refine ⟨r, ?_, by omega, hwr, ?_⟩
        · simpa only [nbdLoop, if_pos hc] using hr
        · intro x hx1 hx2
          rcases Nat.eq_or_lt_of_le hx1 with rfl | hx
          · exact hc
          · exact hmin x (by omega) hx2
      · refine ⟨nd, ?_, Nat.le_refl nd, Bool.not_eq_true _ ▸ hc, ?_⟩
        · simp only [nbdLoop, if_neg hc]
        · intro x hx1 hx2
          exact absurd hx2 (by omega)

/-- C8 counterexample: the `while` loop of `get_next_business_day` carries
no upper-bound guard — there is no iteration bound after which every call
has returned (or failed fast): on the malformed all-holiday calendar the
loop is still running after any number of iterations, instead of raising a
configuration error. -/
theorem next_business_day_no_upper_bound_guard :
    ¬ ∃ B : Nat, ∀ (du : DateUtils) (d : Nat),
        (get_next_business_day du B d).isSome = true := by
  rintro ⟨B, hB⟩
  have h := hB allHolidayCal 0
  rw [get_next_business_day, nbdLoop_none_of_all_holiday] at h
  exact absurd h (by decide)

/-- C8 (amended): whenever some date strictly greater than the input is
neither a holiday nor a weekend day, the loop terminates (here: within
`w - d` iterations) and returns the smallest such date. -/
theorem get_next_business_day_least_working (du : DateUtils) (d w : Nat)
    (hdw : d < w) (hwork : (du.is_holiday w || du.is_weekend w) = false) :
    ∃ r, get_next_business_day du (w - d) d = some r ∧ d < r
      ∧ (du.is_holiday r || du.is_weekend r) = false
      ∧ ∀ x, d < x → x < r → (du.is_holiday x || du.is_weekend x) = true := by
  obtain ⟨r, hr, hle, hwr, hmin⟩ := nbdLoop_finds du (w - d) (d + 1)
    ⟨w - (d + 1), by omega, by rw [show d + 1 + (w - (d + 1)) = w by omega]; exact hwork⟩
  exact ⟨r, hr, by omega, hwr, fun x hx1 hx2 => hmin x (by omega) hx2⟩

theorem get_next_business_day_least_working_witness :
    0 < 1 ∧ (noHolidays.is_holiday 1 || noHolidays.is_weekend 1) = false
    ∧ ∃ r, get_next_business_day noHolidays (1 - 0) 0 = some r ∧ 0 < r
      ∧ (noHolidays.is_holiday r || noHolidays.is_weekend r) = false
      ∧ ∀ x, 0 < x → x < r → (noHolidays.is_holiday x || noHolidays.is_weekend x) = true :=
  ⟨by decide, by decide,
    get_next_business_day_least_working noHolidays 0 1 (by decide) (by decide)⟩

end PMChat
